import Mathlib

/-!
Verification of the taskqueue-runner-go store layer.

The definitions below are a shallow embedding of the Go/PostgreSQL store
operations found in `internal/storage/postgres` of the repository:
`CreateTask`, `GetTask`, `ClaimNextTask`, `CompleteTask`, `MarkTaskFailed`,
`ScheduleRetry`, `UpdateTaskStatus`, `InsertHistory`, `GetStats`, along with
the pure retry-policy function `calculateBackoff`.

Timestamps are modelled as integers (an abstract linear clock), SQL table
rows as lists of structures, and the float arithmetic of `calculateBackoff`
as exact rational arithmetic with the final `time.Duration` truncation
modelled as an integer floor.  `rand.Float64` draws are passed as explicit
jitter parameters.  The best-effort history insert is modelled with an
explicit `historyOk` flag: `true` means the insert succeeds, `false` means
the underlying database rejected it (the Go code only logs that failure).
-/

namespace TaskQueue

/-- Task lifecycle status, from `models.TaskStatus` (`config.go`): the enum
has exactly the four values queued / running / succeeded / failed. -/
inductive TaskStatus where
  | queued
  | running
  | succeeded
  | failed
deriving Repr, DecidableEq

/-- History event types, from `models.EventType`. -/
inductive EventType where
  | task_queued
  | task_started
  | task_succeeded
  | task_failed
  | retry_scheduled
  | timeout_occurred
  | worker_lock_acquired
  | worker_lock_expired
  | task_failed_final
deriving Repr, DecidableEq

/-- A row of the `tasks` table, from `models.Task`.  `payload` is the raw
JSON blob kept as an opaque string. -/
structure Task where
  id : Nat
  name : String
  type : String
  payload : String
  status : TaskStatus
  priority : Int
  retry_count : Int
  max_retries : Int
  last_error : Option String
  next_run_at : Int
  backoff_seconds : Int
  timeout_seconds : Int
  locked_at : Option Int
  lock_expires_at : Option Int
  created_at : Int
  updated_at : Int
deriving Repr, DecidableEq

/-- A row of the `task_history` table, from `models.TaskHistory`. -/
structure TaskHistory where
  task_id : Nat
  status : TaskStatus
  event_type : EventType
  retry_count : Option Int
  max_retries : Option Int
  backoff_seconds : Option Int
  next_run_at : Option Int
  error_message : Option String
  worker_id : Option String
deriving Repr, DecidableEq

/-- The create request, from `models.CreateTaskRequest`.  `none` in an
optional field means the JSON field was absent. -/
structure CreateTaskRequest where
  name : String
  type : String
  payload : String
  priority : Int
  max_retries : Option Int
  timeout_seconds : Option Int
  backoff_seconds : Option Int
deriving Repr, DecidableEq

/-- The database state: the `tasks` table, the `task_history` table, and the
BIGSERIAL counter that yields the next task id. -/
structure StoreState where
  tasks : List Task
  history : List TaskHistory
  nextID : Nat
deriving Repr, DecidableEq

/-- The store error surfaced by id-targeted mutations,
`storage.ErrTaskNotFound`. -/
inductive StoreError where
  | taskNotFound
deriving Repr, DecidableEq

/-- `strings.ToLower`: lowercase every character of the string (modelled
character-wise so that it evaluates inside the kernel). -/
def strToLower (s : String) : String :=
  String.mk (s.data.map Char.toLower)

/-- SQL `UPDATE ... WHERE p` over a table: rewrite every matching row. -/
def updateWhere (p : Task → Bool) (f : Task → Task) (ts : List Task) : List Task :=
  ts.map fun t => if p t then f t else t

/-- `GetTask` (`get_task.go`): `SELECT ... WHERE id = $1`; `none` models
`storage.ErrTaskNotFound`. -/
def getTask (s : StoreState) (id : Nat) : Option Task :=
  s.tasks.find? fun t => t.id == id

/-- `InsertHistory` (`history.go`) as invoked on the best-effort paths: when
the insert fails (`historyOk = false`) the Go code only logs the error, so
the state is unchanged. -/
def insertHistoryBestEffort (s : StoreState) (historyOk : Bool) (h : TaskHistory) : StoreState :=
  if historyOk then { s with history := s.history ++ [h] } else s

/-- `CreateTask` (`create_task.go`): lowercases the type, applies the
defaults `max_retries = 3`, `timeout_seconds = 30`, `backoff_seconds = 5`,
`payload = "\x7b\x7d"` when empty, and inserts a queued row with
`retry_count = 0` and `next_run_at = now`; then appends a best-effort
`task_queued` history event.  Returns the inserted row. -/
def createTask (s : StoreState) (req : CreateTaskRequest) (now : Int) (historyOk : Bool) :
    Task × StoreState :=
  let ty := strToLower req.type
  let maxRetries := req.max_retries.getD 3
  let timeoutSeconds := req.timeout_seconds.getD 30
  let backoffSeconds := req.backoff_seconds.getD 5
  let payload := if req.payload = "" then "\x7b\x7d" else req.payload
  let task : Task :=
    { id := s.nextID
      name := req.name
      type := ty
      payload := payload
      status := TaskStatus.queued
      priority := req.priority
      retry_count := 0
      max_retries := maxRetries
      last_error := none
      next_run_at := now
      backoff_seconds := backoffSeconds
      timeout_seconds := timeoutSeconds
      locked_at := none
      lock_expires_at := none
      created_at := now
      updated_at := now }
  let s1 : StoreState := { s with tasks := s.tasks ++ [task], nextID := s.nextID + 1 }
  let hist : TaskHistory :=
    { task_id := task.id
      status := TaskStatus.queued
      event_type := EventType.task_queued
      retry_count := some task.retry_count
      max_retries := some task.max_retries
      backoff_seconds := some task.backoff_seconds
      next_run_at := some task.next_run_at
      error_message := none
      worker_id := none }
  (task, insertHistoryBestEffort s1 historyOk hist)

/-- The claim eligibility predicate from the `WHERE` clause of
`ClaimNextTask` (`claim.go`): `status = queued AND next_run_at <= now AND
(lock_expires_at IS NULL OR lock_expires_at <= now)`. -/
def eligible (now : Int) (t : Task) : Bool :=
  decide (t.status = TaskStatus.queued) && decide (t.next_run_at ≤ now) &&
    (match t.lock_expires_at with
     | none => true
     | some e => decide (e ≤ now))

/-- The first `ORDER BY` key of `ClaimNextTask`: `CASE WHEN lock_expires_at
IS NOT NULL AND lock_expires_at <= now THEN 0 ELSE 1 END`. -/
def claimRank (now : Int) (t : Task) : Int :=
  match t.lock_expires_at with
  | none => 1
  | some e => if e ≤ now then 0 else 1

/-- Strict comparison of two `(rank, priority, created_at)` sort keys under
the claim ordering: rank ascending, then priority descending, then
created_at ascending. -/
def keyLt (r1 p1 c1 r2 p2 c2 : Int) : Bool :=
  decide (r1 < r2) ||
    (decide (r1 = r2) &&
      (decide (p2 < p1) || (decide (p1 = p2) && decide (c1 < c2))))

/-- `a` strictly precedes `b` in the `ORDER BY` of `ClaimNextTask`. -/
def claimBefore (now : Int) (a b : Task) : Bool :=
  keyLt (claimRank now a) a.priority a.created_at
    (claimRank now b) b.priority b.created_at

/-- Pick one minimal element of a list under the claim ordering (the row the
`ORDER BY ... LIMIT 1` subquery selects); earlier rows win ties. -/
def pickMin (now : Int) : List Task → Option Task
  | [] => none
  | t :: ts =>
    match pickMin now ts with
    | none => some t
    | some b => if claimBefore now b t then some b else some t

/-- The `SELECT` subquery of `ClaimNextTask`: the first row, in the claim
ordering, among rows satisfying the eligibility predicate. -/
def selectClaim (now : Int) (ts : List Task) : Option Task :=
  pickMin now (ts.filter (eligible now))

/-- The `SET` clause of `ClaimNextTask`: `status = running, locked_at = now,
lock_expires_at = now + timeout_seconds, updated_at = now` (the interval is
computed from the row's own `timeout_seconds` column). -/
def claimUpdate (now : Int) (t : Task) : Task :=
  { t with
    status := TaskStatus.running
    locked_at := some now
    lock_expires_at := some (now + t.timeout_seconds)
    updated_at := now }

/-- `ClaimNextTask` (`claim.go`): atomically select one eligible row and
transition it to running; `none` models the `pgx.ErrNoRows` "no task"
sentinel.  The `workerID` argument is accepted but, as in the source, not
used by the query. -/
def claimNextTask (s : StoreState) (workerID : String) (now : Int) :
    Option Task × StoreState :=
  match selectClaim now s.tasks with
  | none => (none, s)
  | some t =>
    (some (claimUpdate now t),
     { s with tasks := updateWhere (fun u => u.id == t.id) (claimUpdate now) s.tasks })

/-- `CompleteTask` (store file for task completion): `UPDATE tasks SET
status = succeeded, last_error = NULL, locked_at = NULL, lock_expires_at =
NULL, updated_at = now WHERE id = taskID`; `ErrTaskNotFound` when no row was
affected; then a best-effort `task_succeeded` history event. -/
def completeTask (s : StoreState) (taskID : Nat) (now : Int) (historyOk : Bool) :
    Except StoreError StoreState :=
  if s.tasks.countP (fun t => t.id == taskID) == 0 then
    Except.error StoreError.taskNotFound
  else
    let ts := updateWhere (fun t => t.id == taskID)
      (fun t =>
        { t with
          status := TaskStatus.succeeded
          last_error := none
          locked_at := none
          lock_expires_at := none
          updated_at := now }) s.tasks
    let hist : TaskHistory :=
      { task_id := taskID
        status := TaskStatus.succeeded
        event_type := EventType.task_succeeded
        retry_count := none
        max_retries := none
        backoff_seconds := none
        next_run_at := none
        error_message := none
        worker_id := none }
    Except.ok (insertHistoryBestEffort { s with tasks := ts } historyOk hist)

/-- `MarkTaskFailed` (`mark_task_failed.go`): `UPDATE tasks SET status =
failed, last_error = errorMessage, locked_at = NULL, lock_expires_at = NULL,
updated_at = now WHERE id = taskID`; `ErrTaskNotFound` when no row was
affected; then a best-effort `task_failed_final` history event. -/
def markTaskFailed (s : StoreState) (taskID : Nat) (errorMessage : String) (now : Int)
    (historyOk : Bool) : Except StoreError StoreState :=
  if s.tasks.countP (fun t => t.id == taskID) == 0 then
    Except.error StoreError.taskNotFound
  else
    let ts := updateWhere (fun t => t.id == taskID)
      (fun t =>
        { t with
          status := TaskStatus.failed
          last_error := some errorMessage
          locked_at := none
          lock_expires_at := none
          updated_at := now }) s.tasks
    let hist : TaskHistory :=
      { task_id := taskID
        status := TaskStatus.failed
        event_type := EventType.task_failed_final
        retry_count := none
        max_retries := none
        backoff_seconds := none
        next_run_at := none
        error_message := some errorMessage
        worker_id := none }
    Except.ok (insertHistoryBestEffort { s with tasks := ts } historyOk hist)

/-- `calculateBackoff` (`retry.go`): exponent `retryCount - 1` capped at 20,
exponential delay `base * 2 ^ exponent` hard-capped at 3600 seconds, a
uniform jitter draw in `[-0.25, 0.25)` applied multiplicatively, a one
second minimum, and the Go conversion `time.Duration(backoff) * time.Second`
which truncates the float to a whole number of seconds (after the one-second
clamp the value is positive, so truncation equals floor). -/
def calculateBackoff (baseSeconds : Int) (retryCount : Int) (jitterPercent : ℚ) : Int :=
  let exponent : Int := retryCount - 1
  let exponent : Int := if exponent > 20 then 20 else exponent
  let exponential : ℚ := (baseSeconds : ℚ) * (2 : ℚ) ^ exponent
  let exponential : ℚ := if exponential > 3600 then 3600 else exponential
  let jitter : ℚ := exponential * jitterPercent
  let backoff : ℚ := exponential + jitter
  let backoff : ℚ := if backoff < 1 then 1 else backoff
  ⌊backoff⌋

/-- `ScheduleRetry` (`retry.go`): read the task; when `retry_count >=
max_retries` delegate to `MarkTaskFailed` with the message prefixed
`"max retries exceeded: "`; otherwise requeue with `retry_count + 1`,
`last_error = errorMessage`, `next_run_at = now + calculateBackoff(...)`,
cleared lock fields, and a best-effort `retry_scheduled` history event. -/
def scheduleRetry (s : StoreState) (taskID : Nat) (errorMessage : String) (now : Int)
    (jitterPercent : ℚ) (historyOk : Bool) : Except StoreError StoreState :=
  match getTask s taskID with
  | none => Except.error StoreError.taskNotFound
  | some task =>
    if task.retry_count ≥ task.max_retries then
      markTaskFailed s taskID ("max retries exceeded: " ++ errorMessage) now historyOk
    else
      let retryCount := task.retry_count + 1
      let nextRunAt := now + calculateBackoff task.backoff_seconds retryCount jitterPercent
      if s.tasks.countP (fun t => t.id == taskID) == 0 then
        Except.error StoreError.taskNotFound
      else
        let ts := updateWhere (fun t => t.id == taskID)
          (fun t =>
            { t with
              status := TaskStatus.queued
              retry_count := retryCount
              last_error := some errorMessage
              next_run_at := nextRunAt
              locked_at := none
              lock_expires_at := none
              updated_at := now }) s.tasks
        let hist : TaskHistory :=
          { task_id := taskID
            status := TaskStatus.queued
            event_type := EventType.retry_scheduled
            retry_count := some retryCount
            max_retries := some task.max_retries
            backoff_seconds := some task.backoff_seconds
            next_run_at := some nextRunAt
            error_message := some errorMessage
            worker_id := none }
        Except.ok (insertHistoryBestEffort { s with tasks := ts } historyOk hist)

/-- `UpdateTaskStatus` (`update_task_status.go`): `UPDATE tasks SET status =
$1, last_error = $2, updated_at = now WHERE id = $3`; it does not touch the
lock fields and appends no history. -/
def updateTaskStatus (s : StoreState) (taskID : Nat) (status : TaskStatus)
    (errorMessage : Option String) (now : Int) : Except StoreError StoreState :=
  if s.tasks.countP (fun t => t.id == taskID) == 0 then
    Except.error StoreError.taskNotFound
  else
    Except.ok
      { s with
        tasks := updateWhere (fun t => t.id == taskID)
          (fun t => { t with status := status, last_error := errorMessage, updated_at := now })
          s.tasks }

/-- The counters of `GetStats` (`stats` query in the store). -/
structure TaskStatsResponse where
  total_tasks : Nat
  queued_tasks : Nat
  running_tasks : Nat
  succeeded_tasks : Nat
  failed_tasks : Nat
  avg_retry_count : ℚ
  tasks_with_retries : Nat
deriving Repr, DecidableEq

/-- `GetStats`: `COUNT(*)`, the four `FILTER (WHERE status = ...)` counts,
`COALESCE(AVG(retry_count), 0)`, and `COUNT(*) FILTER (WHERE retry_count >
0)`. -/
def getStats (s : StoreState) : TaskStatsResponse :=
  { total_tasks := s.tasks.length
    queued_tasks := s.tasks.countP fun t => decide (t.status = TaskStatus.queued)
    running_tasks := s.tasks.countP fun t => decide (t.status = TaskStatus.running)
    succeeded_tasks := s.tasks.countP fun t => decide (t.status = TaskStatus.succeeded)
    failed_tasks := s.tasks.countP fun t => decide (t.status = TaskStatus.failed)
    avg_retry_count :=
      if s.tasks.length = 0 then 0
      else ((s.tasks.map fun t => (t.retry_count : ℚ)).sum) / (s.tasks.length : ℚ)
    tasks_with_retries := s.tasks.countP fun t => decide (0 < t.retry_count) }

/-- One invocation of a store operation, with all of its external inputs
(wall-clock time, jitter draw, success of the best-effort history insert)
made explicit. -/
inductive StoreOp where
  | create (req : CreateTaskRequest) (now : Int) (historyOk : Bool)
  | claim (workerID : String) (now : Int)
  | complete (taskID : Nat) (now : Int) (historyOk : Bool)
  | markFailed (taskID : Nat) (msg : String) (now : Int) (historyOk : Bool)
  | retry (taskID : Nat) (msg : String) (now : Int) (jitterPercent : ℚ) (historyOk : Bool)
  | setStatus (taskID : Nat) (status : TaskStatus) (msg : Option String) (now : Int)

/-- Apply one store operation to the state.  An operation that returns
`ErrTaskNotFound` affected zero rows, so the state is unchanged. -/
def applyOp (s : StoreState) : StoreOp → StoreState
  | StoreOp.create req now hOk => (createTask s req now hOk).2
  | StoreOp.claim w now => (claimNextTask s w now).2
  | StoreOp.complete id now hOk =>
    match completeTask s id now hOk with
    | Except.ok s1 => s1
    | Except.error _ => s
  | StoreOp.markFailed id msg now hOk =>
    match markTaskFailed s id msg now hOk with
    | Except.ok s1 => s1
    | Except.error _ => s
  | StoreOp.retry id msg now j hOk =>
    match scheduleRetry s id msg now j hOk with
    | Except.ok s1 => s1
    | Except.error _ => s
  | StoreOp.setStatus id st msg now =>
    match updateTaskStatus s id st msg now with
    | Except.ok s1 => s1
    | Except.error _ => s

/-- The empty store: no tasks, no history, ids start at 1. -/
def emptyStore : StoreState := { tasks := [], history := [], nextID := 1 }

/-- The state reached from the empty store by a sequence of operations. -/
def runOps (ops : List StoreOp) : StoreState :=
  ops.foldl applyOp emptyStore

/-! ### Concrete stores used by witnesses and counterexamples -/

/-- A queued task with default knobs, created at time 0. -/
def witTask1 : Task :=
  { id := 1
    name := "a"
    type := "send_email"
    payload := "\x7b\x7d"
    status := TaskStatus.queued
    priority := 0
    retry_count := 0
    max_retries := 3
    last_error := none
    next_run_at := 0
    backoff_seconds := 5
    timeout_seconds := 30
    locked_at := none
    lock_expires_at := none
    created_at := 0
    updated_at := 0 }

/-- A later, higher-priority queued task. -/
def witTask2 : Task :=
  { witTask1 with id := 2, name := "b", priority := 100, created_at := 1, updated_at := 1 }

/-- A two-task store used as the witness input for the claim theorem. -/
def witStore : StoreState := { tasks := [witTask1, witTask2], history := [], nextID := 3 }

/-- A task claimed at time 0 whose holder died: still `running`, lock lease
`[0, 30]` long expired. -/
def stalledTask : Task :=
  { witTask1 with
    status := TaskStatus.running
    locked_at := some 0
    lock_expires_at := some 30 }

/-- A store holding only the stalled running task. -/
def stalledStore : StoreState := { tasks := [stalledTask], history := [], nextID := 2 }

/-- A task already in the terminal status failed. -/
def failedTask : Task :=
  { witTask1 with status := TaskStatus.failed, last_error := some "boom" }

/-- A store holding only the failed task. -/
def failedStore : StoreState := { tasks := [failedTask], history := [], nextID := 2 }

/-- The lock-field invariant of one task row: running iff both lock fields
are set. -/
def lockInv (t : Task) : Prop :=
  t.status = TaskStatus.running ↔ (t.locked_at ≠ none ∧ t.lock_expires_at ≠ none)

/-- Whether an operation is the low-level `UpdateTaskStatus` setter. -/
def isSetStatus : StoreOp → Bool
  | StoreOp.setStatus _ _ _ _ => true
  | _ => false

/-- Whether an operation, if it is a `CreateTask`, carries a non-negative
retry budget (the default 3 counts as non-negative). -/
def createNonneg : StoreOp → Bool
  | StoreOp.create req _ _ => decide (0 ≤ req.max_retries.getD 3)
  | _ => true

/-- Well-formedness the database schema guarantees: every id was assigned
below the serial counter, and ids are unique (primary key). -/
def WF (s : StoreState) : Prop :=
  (∀ t ∈ s.tasks, t.id < s.nextID) ∧ (s.tasks.map Task.id).Nodup

/-- The retry-budget invariant of one task row. -/
def retryInv (t : Task) : Prop :=
  0 ≤ t.retry_count ∧ t.retry_count ≤ t.max_retries

/-- A create request with every optional knob left to its default. -/
def cexReq : CreateTaskRequest :=
  { name := "t"
    type := "noop"
    payload := ""
    priority := 0
    max_retries := none
    timeout_seconds := none
    backoff_seconds := none }

/-- Operations reaching a state that violates the lock-field invariant:
create task 1, then `UpdateTaskStatus(1, running)` (which does not touch the
lock fields). -/
def lockCexOps : List StoreOp :=
  [StoreOp.create cexReq 0 true, StoreOp.setStatus 1 TaskStatus.running none 1]

/-- A pipeline-only operation sequence: create, claim, complete. -/
def lockWitOps : List StoreOp :=
  [StoreOp.create cexReq 0 true, StoreOp.claim "w1" 5, StoreOp.complete 1 9 true]

/-- A create request demanding a negative retry budget. -/
def badReq : CreateTaskRequest :=
  { cexReq with max_retries := some (-1) }

/-- An operation sequence exercising the retry invariant: create a task,
claim it, and schedule one retry. -/
def retryWitOps : List StoreOp :=
  [StoreOp.create cexReq 0 true, StoreOp.claim "w1" 5,
    StoreOp.retry 1 "boom" 9 0 true]

/-- The row `lockWitOps` ends with: created at 0, claimed at 5, completed
at 9. -/
def lockWitTask : Task :=
  { id := 1
    name := "t"
    type := "noop"
    payload := "\x7b\x7d"
    status := TaskStatus.succeeded
    priority := 0
    retry_count := 0
    max_retries := 3
    last_error := none
    next_run_at := 0
    backoff_seconds := 5
    timeout_seconds := 30
    locked_at := none
    lock_expires_at := none
    created_at := 0
    updated_at := 9 }

/-- The row `retryWitOps` ends with: requeued with one retry, the backoff
for attempt 1 at base 5 added to the failure time 9. -/
def retryWitTask : Task :=
  { lockWitTask with
    status := TaskStatus.queued
    retry_count := 1
    last_error := some "boom"
    next_run_at := 9 + calculateBackoff 5 1 0 }

/-- The row as it stands right after the claim at time 5. -/
def runningWitTask : Task :=
  { lockWitTask with
    status := TaskStatus.running
    locked_at := some 5
    lock_expires_at := some 35
    updated_at := 5 }

/-- The store after creating task 1 at time 0 and claiming it at time 5. -/
def claimedWitStore : StoreState :=
  runOps [StoreOp.create cexReq 0 true, StoreOp.claim "w1" 5]

/-! ### Properties of the claim ordering -/

/-- Unfolding of the strict key comparison into arithmetic. -/
theorem keyLt_iff (r1 p1 c1 r2 p2 c2 : Int) :
    keyLt r1 p1 c1 r2 p2 c2 = true ↔
      r1 < r2 ∨ (r1 = r2 ∧ (p2 < p1 ∨ (p1 = p2 ∧ c1 < c2))) := by
  simp [keyLt, Bool.or_eq_true, Bool.and_eq_true, decide_eq_true_eq]

/-- The claim ordering is irreflexive. -/
theorem claimBefore_irrefl (now : Int) (t : Task) : claimBefore now t t = false := by
  rw [claimBefore, Bool.eq_false_iff, Ne, keyLt_iff]
  omega

/-- The claim ordering is asymmetric. -/
theorem claimBefore_asymm (now : Int) (a b : Task) (h : claimBefore now a b = true) :
    claimBefore now b a = false := by
  rw [claimBefore, keyLt_iff] at h
  rw [claimBefore, Bool.eq_false_iff, Ne, keyLt_iff]
  omega

/-- Negative transitivity of the claim ordering: a strict predecessor of `t`
also strictly precedes anything that does not strictly precede `t`. -/
theorem claimBefore_of_not_before (now : Int) (u t b : Task)
    (hu : claimBefore now u t = true) (hb : claimBefore now b t = false) :
    claimBefore now u b = true := by
  rw [claimBefore, keyLt_iff] at hu ⊢
  rw [claimBefore, Bool.eq_false_iff, Ne, keyLt_iff] at hb
  omega

/-- `pickMin` returns `none` exactly on the empty list. -/
theorem pickMin_eq_none_iff (now : Int) (l : List Task) :
    pickMin now l = none ↔ l = [] := by
  cases l with
  | nil => simp [pickMin]
  | cons t ts =>
    simp only [pickMin]
    cases pickMin now ts with
    | none => simp
    | some b => cases hcb : claimBefore now b t <;> simp [hcb]

/-- `pickMin` returns a member of the list. -/
theorem pickMin_mem (now : Int) :
    ∀ {l : List Task} {t : Task}, pickMin now l = some t → t ∈ l := by
  intro l
  induction l with
  | nil => intro t h; simp [pickMin] at h
  | cons x xs ih =>
    intro t h
    rw [pickMin] at h
    cases hp : pickMin now xs with
    | none =>
      rw [hp] at h
      simp only [Option.some.injEq] at h
      simp [← h]
    | some b =>
      rw [hp] at h
      cases hb : claimBefore now b x with
      | true =>
        simp only [hb, if_true, Option.some.injEq] at h
        subst h
        exact List.mem_cons_of_mem x (ih hp)
      | false =>
        simp only [hb, Bool.false_eq_true, if_false, Option.some.injEq] at h
        simp [← h]

/-- `pickMin` returns a minimal element: no list element strictly precedes
it in the claim ordering. -/
theorem pickMin_min (now : Int) :
    ∀ {l : List Task} {t : Task}, pickMin now l = some t →
      ∀ u ∈ l, claimBefore now u t = false := by
  intro l
  induction l with
  | nil => intro t h; simp [pickMin] at h
  | cons x xs ih =>
    intro t h
    rw [pickMin] at h
    cases hp : pickMin now xs with
    | none =>
      rw [hp] at h
      simp only [Option.some.injEq] at h
      have hxs : xs = [] := (pickMin_eq_none_iff now xs).mp hp
      subst hxs
      intro u hu
      rw [List.mem_singleton] at hu
      subst hu; subst h
      exact claimBefore_irrefl now u
    | some b =>
      rw [hp] at h
      cases hb : claimBefore now b x with
      | true =>
        simp only [hb, if_true, Option.some.injEq] at h
        subst h
        intro u hu
        rcases List.mem_cons.mp hu with rfl | hmem
        · exact claimBefore_asymm now b u hb
        · exact ih hp u hmem
      | false =>
        simp only [hb, Bool.false_eq_true, if_false, Option.some.injEq] at h
        subst h
        intro u hu
        rcases List.mem_cons.mp hu with rfl | hmem
        · exact claimBefore_irrefl now u
        · cases hut : claimBefore now u x with
          | false => rfl
          | true =>
            have hbefore := claimBefore_of_not_before now u x b hut hb
            have hub := ih hp u hmem
            rw [hbefore] at hub
            exact absurd hub (by simp)

/-- `selectClaim` returns `none` iff no row is eligible. -/
theorem selectClaim_eq_none_iff (now : Int) (ts : List Task) :
    selectClaim now ts = none ↔ ∀ t ∈ ts, eligible now t = false := by
  rw [selectClaim, pickMin_eq_none_iff]
  constructor
  · intro h t ht
    cases he : eligible now t with
    | false => rfl
    | true =>
      have hmem : t ∈ ts.filter (eligible now) := List.mem_filter.mpr ⟨ht, he⟩
      rw [h] at hmem
      simp at hmem
  · intro h
    apply List.eq_nil_iff_forall_not_mem.mpr
    intro t ht
    have hm := List.mem_filter.mp ht
    rw [h t hm.1] at hm
    exact absurd hm.2 (by simp)

/-- A row returned by `selectClaim` is an eligible member of the table. -/
theorem selectClaim_mem {now : Int} {ts : List Task} {t : Task}
    (h : selectClaim now ts = some t) : t ∈ ts ∧ eligible now t = true := by
  have hm := pickMin_mem now h
  exact ⟨(List.mem_filter.mp hm).1, (List.mem_filter.mp hm).2⟩

/-- A row returned by `selectClaim` is first in the claim ordering: no other
eligible row strictly precedes it. -/
theorem selectClaim_min {now : Int} {ts : List Task} {t : Task}
    (h : selectClaim now ts = some t) :
    ∀ u ∈ ts, eligible now u = true → claimBefore now u t = false := by
  intro u hu he
  exact pickMin_min now h u (List.mem_filter.mpr ⟨hu, he⟩)

/-! ### Properties of row updates -/

/-- Mapping a function that fixes every element leaves a list unchanged. -/
theorem map_eq_self_of_fixed {α : Type} (l : List α) (g : α → α)
    (h : ∀ a ∈ l, g a = a) : l.map g = l := by
  induction l with
  | nil => rfl
  | cons x xs ih =>
    rw [List.map_cons, h x (List.mem_cons_self x xs),
      ih fun a ha => h a (List.mem_cons_of_mem x ha)]

/-- When the table has no duplicate ids, an `UPDATE ... WHERE id = t.id`
rewrites exactly the row `t` and leaves every other row in place. -/
theorem updateWhere_nodup_split (f : Task → Task) {ts : List Task} {t : Task}
    (hmem : t ∈ ts) (hnd : (ts.map Task.id).Nodup) :
    ∃ l1 l2, ts = l1 ++ t :: l2 ∧
      updateWhere (fun u => u.id == t.id) f ts = l1 ++ f t :: l2 := by
  obtain ⟨l1, l2, rfl⟩ := List.append_of_mem hmem
  refine ⟨l1, l2, rfl, ?_⟩
  rw [List.map_append, List.map_cons] at hnd
  have hnotmem := (List.nodup_cons.mp (List.nodup_middle.mp hnd)).1
  rw [List.mem_append] at hnotmem
  have h1 : ∀ u ∈ l1, u.id ≠ t.id := by
    intro u hu he
    exact hnotmem (Or.inl (he ▸ List.mem_map_of_mem Task.id hu))
  have h2 : ∀ u ∈ l2, u.id ≠ t.id := by
    intro u hu he
    exact hnotmem (Or.inr (he ▸ List.mem_map_of_mem Task.id hu))
  rw [updateWhere, List.map_append, List.map_cons]
  congr 1
  · exact map_eq_self_of_fixed _ _ fun u hu => by
      rw [if_neg]
      simp only [beq_iff_eq]
      exact h1 u hu
  · congr 1
    · rw [if_pos]
      simp
    · exact map_eq_self_of_fixed _ _ fun u hu => by
        rw [if_neg]
        simp only [beq_iff_eq]
        exact h2 u hu

/-! ### C1: the claim operation -/

/-- C1: For every store state (ids distinct, as the primary key guarantees)
and every call `ClaimNextTask(workerID)` at time `now`: if no task satisfies
the eligibility predicate, the call returns the no-task sentinel and changes
no row; otherwise it returns an eligible task that comes first in the claim
order (expired-lock rows first, then priority descending, then created_at
ascending), and that row alone is transitioned to running with
`locked_at = now`, `lock_expires_at = now + timeout_seconds` and
`updated_at = now`. -/
theorem claimNextTask_spec (s : StoreState) (w : String) (now : Int)
    (hids : (s.tasks.map Task.id).Nodup) :
    ((∀ t ∈ s.tasks, eligible now t = false) → claimNextTask s w now = (none, s)) ∧
    ((∃ t ∈ s.tasks, eligible now t = true) →
      ∃ c l1 l2,
        c ∈ s.tasks ∧ eligible now c = true ∧
        (∀ u ∈ s.tasks, eligible now u = true → claimBefore now u c = false) ∧
        s.tasks = l1 ++ c :: l2 ∧
        (claimUpdate now c).status = TaskStatus.running ∧
        (claimUpdate now c).locked_at = some now ∧
        (claimUpdate now c).lock_expires_at = some (now + c.timeout_seconds) ∧
        (claimUpdate now c).updated_at = now ∧
        claimNextTask s w now =
          (some (claimUpdate now c), { s with tasks := l1 ++ claimUpdate now c :: l2 })) := by
  constructor
  · intro hall
    have hnone : selectClaim now s.tasks = none := (selectClaim_eq_none_iff now s.tasks).mpr hall
    rw [claimNextTask, hnone]
  · intro hex
    cases hsel : selectClaim now s.tasks with
    | none =>
      obtain ⟨t, ht, he⟩ := hex
      rw [(selectClaim_eq_none_iff now s.tasks).mp hsel t ht] at he
      exact absurd he (by simp)
    | some c =>
      obtain ⟨hmem, helig⟩ := selectClaim_mem hsel
      obtain ⟨l1, l2, hsplit, hupd⟩ := updateWhere_nodup_split (claimUpdate now) hmem hids
      refine ⟨c, l1, l2, hmem, helig, selectClaim_min hsel, hsplit, rfl, rfl, rfl, rfl, ?_⟩
      rw [claimNextTask, hsel]
      dsimp only
      rw [hupd]

/-- Witness for C1 on a concrete two-task store: task 2 has higher priority
and is claimed. -/
theorem claimNextTask_spec_witness :
    (([witTask1, witTask2].map Task.id).Nodup : Prop) ∧
    ((∀ t ∈ witStore.tasks, eligible 50 t = false) →
        claimNextTask witStore "w1" 50 = (none, witStore)) ∧
    ((∃ t ∈ witStore.tasks, eligible 50 t = true) →
      ∃ c l1 l2,
        c ∈ witStore.tasks ∧ eligible 50 c = true ∧
        (∀ u ∈ witStore.tasks, eligible 50 u = true → claimBefore 50 u c = false) ∧
        witStore.tasks = l1 ++ c :: l2 ∧
        (claimUpdate 50 c).status = TaskStatus.running ∧
        (claimUpdate 50 c).locked_at = some 50 ∧
        (claimUpdate 50 c).lock_expires_at = some (50 + c.timeout_seconds) ∧
        (claimUpdate 50 c).updated_at = 50 ∧
        claimNextTask witStore "w1" 50 =
          (some (claimUpdate 50 c), { witStore with tasks := l1 ++ claimUpdate 50 c :: l2 })) :=
  ⟨by decide, claimNextTask_spec witStore "w1" 50 (by decide)⟩

/-! ### C2: recovery of expired-lock tasks -/

/-- C2: The reclaim guarantee fails on the code.  A task claimed at time 0
(status running, lease `[0, 30]`) whose holder performs no further
transition is never returned by a later `ClaimNextTask`: at time 100, well
past `lock_expires_at = 30`, the claim returns the no-task sentinel and
changes nothing, because the `WHERE` clause requires `status = queued` while
the stalled task still has `status = running`.  This contradicts the
source's own comment on `ClaimNextTask` ("Handles timeout recovery",
"Prioritizes tasks with expired locks to prevent starvation"): the
expired-lock `ORDER BY` branch is unreachable. -/
theorem expired_running_task_never_reclaimed :
    stalledTask.status = TaskStatus.running ∧
    stalledTask.lock_expires_at = some 30 ∧ ((30 : Int) ≤ 100) ∧
    getTask stalledStore 1 = some stalledTask ∧
    claimNextTask stalledStore "w2" 100 = (none, stalledStore) := by
  decide

/-! ### Row lookups after id-targeted updates -/

/-- An id-preserving `UPDATE ... WHERE id = j` commutes with `SELECT ...
WHERE id = i`: the first row found is the original first row, rewritten when
its id matches `j`. -/
theorem find?_updateWhere (i j : Nat) (f : Task → Task)
    (hf : ∀ x, (f x).id = x.id) :
    ∀ ts : List Task,
      List.find? (fun t => t.id == i) (updateWhere (fun u => u.id == j) f ts) =
        (List.find? (fun t => t.id == i) ts).map fun t =>
          if t.id == j then f t else t := by
  intro ts
  induction ts with
  | nil => rfl
  | cons x xs ih =>
    rw [updateWhere, List.map_cons, List.find?_cons, List.find?_cons]
    have hyid : ((if x.id == j then f x else x).id == i) = (x.id == i) := by
      cases h : x.id == j with
      | true => rw [if_pos rfl, hf]
      | false => rw [if_neg (by simp)]
    rw [hyid]
    cases hx : x.id == i with
    | true => rfl
    | false => exact ih

/-- Distinct rows of a duplicate-free table have distinct ids. -/
theorem task_id_inj {ts : List Task} (hnd : (ts.map Task.id).Nodup)
    {a b : Task} (ha : a ∈ ts) (hb : b ∈ ts) (h : a.id = b.id) : a = b :=
  List.inj_on_of_nodup_map hnd ha hb h

/-! ### C3: terminal statuses -/

/-- C3 counterexample: `CompleteTask` invoked on a task already in the
terminal status failed succeeds and rewrites that task to succeeded, so the
claim that no store operation ever changes a terminal task's status is
false. -/
theorem completeTask_escapes_terminal :
    failedTask.status = TaskStatus.failed ∧
    getTask failedStore 1 = some failedTask ∧
    (completeTask failedStore 1 50 true).toOption.map
        (fun s1 => (getTask s1 1).map Task.status) =
      some (some TaskStatus.succeeded) := by
  decide

/-- C3 (amended): terminal statuses are absorbing under `ClaimNextTask`
only: a succeeded or failed task is left entirely unchanged by any claim
call, because the eligibility predicate admits only queued rows; the
id-targeted operations (`CompleteTask`, `MarkTaskFailed`, `ScheduleRetry`,
`UpdateTaskStatus`) update unconditionally by id and can move a task out of
a terminal status. -/
theorem claim_preserves_terminal (s : StoreState) (w : String) (now : Int) (i : Nat)
    (t : Task) (hids : (s.tasks.map Task.id).Nodup)
    (hget : getTask s i = some t)
    (hterm : t.status = TaskStatus.succeeded ∨ t.status = TaskStatus.failed) :
    getTask (claimNextTask s w now).2 i = some t := by
  rw [claimNextTask]
  cases hsel : selectClaim now s.tasks with
  | none => exact hget
  | some c =>
    dsimp only
    obtain ⟨hcmem, hcelig⟩ := selectClaim_mem hsel
    have hcq : c.status = TaskStatus.queued := by
      rw [eligible, Bool.and_eq_true, Bool.and_eq_true, decide_eq_true_eq] at hcelig
      exact hcelig.1.1
    rw [getTask] at hget
    have htmem : t ∈ s.tasks := List.mem_of_find?_eq_some hget
    have htid : t.id = i := by
      have := List.find?_some hget
      simpa using this
    have hne : (t.id == c.id) = false := by
      cases he : t.id == c.id with
      | false => rfl
      | true =>
        have hid : t.id = c.id := by simpa using he
        have : t = c := task_id_inj hids htmem hcmem hid
        rw [this, hcq] at hterm
        rcases hterm with h | h <;> exact absurd h (by simp)
    rw [getTask, find?_updateWhere i c.id (claimUpdate now) (fun _ => rfl) s.tasks, hget]
    simp only [Option.map_some', hne, Bool.false_eq_true, if_false]

/-- Witness for the amended C3 on a concrete store holding one failed task:
a claim at time 50 leaves it untouched. -/
theorem claim_preserves_terminal_witness :
    getTask (claimNextTask failedStore "w1" 50).2 1 = some failedTask :=
  claim_preserves_terminal failedStore "w1" 50 1 failedTask (by decide) (by decide)
    (Or.inr (by decide))

/-! ### C4: retry scheduling -/

/-- The best-effort history append never changes the `tasks` table. -/
theorem insertHistoryBestEffort_tasks (s : StoreState) (b : Bool) (h : TaskHistory) :
    (insertHistoryBestEffort s b h).tasks = s.tasks := by
  cases b <;> rfl

/-- A successful `SELECT ... WHERE id = i` implies the matching `UPDATE`
affects at least one row. -/
theorem countP_id_ne_zero {ts : List Task} {i : Nat} {t : Task}
    (h : List.find? (fun u => u.id == i) ts = some t) :
    (ts.countP (fun u => u.id == i) == 0) = false := by
  have hmem := List.mem_of_find?_eq_some h
  have hp := List.find?_some h
  have hpos : 0 < ts.countP (fun u => u.id == i) :=
    List.countP_pos_iff.mpr ⟨t, hmem, hp⟩
  rw [beq_eq_false_iff_ne]
  omega

/-- C4: For an existing task `t`, `ScheduleRetry(id, m)` with retries
exhausted (`retry_count >= max_retries`) acts exactly as
`MarkTaskFailed(id, "max retries exceeded: " ++ m)`; otherwise it requeues
the task with `retry_count + 1`, `last_error = m`, `next_run_at = now +
calculateBackoff(backoff_seconds, retry_count + 1)` and cleared lock
fields. -/
theorem scheduleRetry_spec (s : StoreState) (i : Nat) (m : String) (now : Int)
    (j : ℚ) (hOk : Bool) (t : Task) (hget : getTask s i = some t) :
    (t.retry_count ≥ t.max_retries →
      scheduleRetry s i m now j hOk =
        markTaskFailed s i ("max retries exceeded: " ++ m) now hOk) ∧
    (t.retry_count < t.max_retries →
      ∃ s1, scheduleRetry s i m now j hOk = Except.ok s1 ∧
        getTask s1 i = some { t with
                              status := TaskStatus.queued,
                              retry_count := t.retry_count + 1,
                              last_error := some m,
                              next_run_at := now +
                                calculateBackoff t.backoff_seconds (t.retry_count + 1) j,
                              locked_at := none,
                              lock_expires_at := none,
                              updated_at := now }) := by
  have hget' : List.find? (fun u => u.id == i) s.tasks = some t := by
    rw [getTask] at hget; exact hget
  have htid : (t.id == i) = true := by simpa using List.find?_some hget'
  constructor
  · intro hge
    rw [scheduleRetry, hget]
    dsimp only
    rw [if_pos hge]
  · intro hlt
    rw [scheduleRetry, hget]
    dsimp only
    rw [if_neg (not_le.mpr hlt)]
    have hc := countP_id_ne_zero hget'
    rw [if_neg (by rw [hc]; exact Bool.false_ne_true)]
    refine ⟨_, rfl, ?_⟩
    rw [getTask, insertHistoryBestEffort_tasks]
    dsimp only
    rw [find?_updateWhere i i
        (fun u =>
          { u with
            status := TaskStatus.queued
            retry_count := t.retry_count + 1
            last_error := some m
            next_run_at := now + calculateBackoff t.backoff_seconds (t.retry_count + 1) j
            locked_at := none
            lock_expires_at := none
            updated_at := now })
        (fun _ => rfl) s.tasks,
      hget', Option.map_some', if_pos htid]

/-- Witness for C4 on the concrete one-task store: task 1 has
`retry_count = 0 < 3 = max_retries`, so a retry is scheduled. -/
theorem scheduleRetry_spec_witness :
    getTask witStore 1 = some witTask1 ∧
    ((witTask1.retry_count ≥ witTask1.max_retries →
      scheduleRetry witStore 1 "boom" 100 0 true =
        markTaskFailed witStore 1 ("max retries exceeded: " ++ "boom") 100 true) ∧
    (witTask1.retry_count < witTask1.max_retries →
      ∃ s1, scheduleRetry witStore 1 "boom" 100 0 true = Except.ok s1 ∧
        getTask s1 1 = some { witTask1 with
                              status := TaskStatus.queued,
                              retry_count := witTask1.retry_count + 1,
                              last_error := some "boom",
                              next_run_at := 100 +
                                calculateBackoff witTask1.backoff_seconds
                                  (witTask1.retry_count + 1) 0,
                              locked_at := none,
                              lock_expires_at := none,
                              updated_at := 100 })) :=
  ⟨by decide, scheduleRetry_spec witStore 1 "boom" 100 0 true witTask1 (by decide)⟩

/-! ### C9: best-effort history -/

/-- `CompleteTask` leaves the same task rows and result whether or not the
history insert succeeds. -/
theorem completeTask_tasks_indep (s : StoreState) (i : Nat) (now : Int) (b : Bool) :
    (completeTask s i now b).map StoreState.tasks =
      (completeTask s i now true).map StoreState.tasks := by
  rw [completeTask, completeTask]
  by_cases h : (s.tasks.countP (fun t => t.id == i) == 0) = true
  · rw [if_pos h, if_pos h]
  · rw [if_neg h, if_neg h]
    simp [Except.map, insertHistoryBestEffort_tasks]

/-- `MarkTaskFailed` leaves the same task rows and result whether or not the
history insert succeeds. -/
theorem markTaskFailed_tasks_indep (s : StoreState) (i : Nat) (m : String) (now : Int)
    (b : Bool) :
    (markTaskFailed s i m now b).map StoreState.tasks =
      (markTaskFailed s i m now true).map StoreState.tasks := by
  rw [markTaskFailed, markTaskFailed]
  by_cases h : (s.tasks.countP (fun t => t.id == i) == 0) = true
  · rw [if_pos h, if_pos h]
  · rw [if_neg h, if_neg h]
    simp [Except.map, insertHistoryBestEffort_tasks]

/-- `ScheduleRetry` leaves the same task rows and result whether or not the
history insert succeeds. -/
theorem scheduleRetry_tasks_indep (s : StoreState) (i : Nat) (m : String) (now : Int)
    (j : ℚ) (b : Bool) :
    (scheduleRetry s i m now j b).map StoreState.tasks =
      (scheduleRetry s i m now j true).map StoreState.tasks := by
  rw [scheduleRetry, scheduleRetry]
  cases hget : getTask s i with
  | none => rfl
  | some t =>
    dsimp only
    by_cases hge : t.retry_count ≥ t.max_retries
    · rw [if_pos hge, if_pos hge]
      exact markTaskFailed_tasks_indep s i ("max retries exceeded: " ++ m) now b
    · rw [if_neg hge, if_neg hge]
      by_cases hc : (s.tasks.countP (fun u => u.id == i) == 0) = true
      · rw [if_pos hc, if_pos hc]
      · rw [if_neg hc, if_neg hc]
        simp [Except.map, insertHistoryBestEffort_tasks]

/-- C9: For every state-changing store operation that appends a history
event, a failing history insert (`historyOk = false`) changes neither the
operation's result nor the resulting `tasks` table compared to a successful
insert: the failure is never surfaced to the caller. -/
theorem history_failure_not_surfaced :
    (∀ (s : StoreState) (req : CreateTaskRequest) (now : Int) (b : Bool),
      (createTask s req now b).1 = (createTask s req now true).1 ∧
      ((createTask s req now b).2).tasks = ((createTask s req now true).2).tasks) ∧
    (∀ (s : StoreState) (i : Nat) (now : Int) (b : Bool),
      (completeTask s i now b).map StoreState.tasks =
        (completeTask s i now true).map StoreState.tasks) ∧
    (∀ (s : StoreState) (i : Nat) (m : String) (now : Int) (b : Bool),
      (markTaskFailed s i m now b).map StoreState.tasks =
        (markTaskFailed s i m now true).map StoreState.tasks) ∧
    (∀ (s : StoreState) (i : Nat) (m : String) (now : Int) (j : ℚ) (b : Bool),
      (scheduleRetry s i m now j b).map StoreState.tasks =
        (scheduleRetry s i m now j true).map StoreState.tasks) := by
  refine ⟨?_, completeTask_tasks_indep, markTaskFailed_tasks_indep, scheduleRetry_tasks_indep⟩
  intro s req now b
  exact ⟨rfl, by simp only [createTask, insertHistoryBestEffort_tasks]⟩

/-! ### C7: backoff bounds for the first attempt -/

/-- C7: For every positive base `B` and every jitter draw in
`[-0.25, 0.25]`, the backoff computed for attempt 1 is at least 1 second
and at most `min(B, 3600) * 1.25` seconds. -/
theorem calculateBackoff_first_attempt_bounds (B : Int) (j : ℚ)
    (hB : 1 ≤ B) (hj1 : -(1/4 : ℚ) ≤ j) (hj2 : j ≤ (1/4 : ℚ)) :
    1 ≤ calculateBackoff B 1 j ∧
      (calculateBackoff B 1 j : ℚ) ≤ min (B : ℚ) 3600 * (5/4) := by
  have hBq : (1:ℚ) ≤ (B:ℚ) := by exact_mod_cast hB
  simp only [calculateBackoff]
  norm_num
  split_ifs with h1 h2 h3
  · refine ⟨by norm_num, ?_⟩
    rw [min_eq_right (le_of_lt h1)]
    norm_num
  · refine ⟨Int.le_floor.mpr (by push_cast; nlinarith), ?_⟩
    rw [min_eq_right (le_of_lt h1)]
    calc ((⌊(3600:ℚ) + 3600 * j⌋ : Int) : ℚ) ≤ (3600:ℚ) + 3600 * j :=
          Int.floor_le _
      _ ≤ 3600 * (5/4) := by nlinarith
  · refine ⟨by norm_num, ?_⟩
    rw [min_eq_left (not_lt.mp h1)]
    norm_num
    nlinarith
  · refine ⟨Int.le_floor.mpr (by push_cast; nlinarith), ?_⟩
    rw [min_eq_left (not_lt.mp h1)]
    calc ((⌊(B:ℚ) + (B:ℚ) * j⌋ : Int) : ℚ) ≤ (B:ℚ) + (B:ℚ) * j :=
          Int.floor_le _
      _ ≤ (B:ℚ) * (5/4) := by nlinarith

/-- Witness for C7 at `B = 5`, `j = 0`: the backoff is five seconds, within
`[1, 6.25]`. -/
theorem calculateBackoff_first_attempt_bounds_witness :
    1 ≤ calculateBackoff 5 1 0 ∧
      (calculateBackoff 5 1 0 : ℚ) ≤ min ((5:Int) : ℚ) 3600 * (5/4) :=
  calculateBackoff_first_attempt_bounds 5 0 (by norm_num) (by norm_num) (by norm_num)

/-! ### C10: statistics counters -/

/-- C10: The `GetStats` counters satisfy `total_tasks = queued + running +
succeeded + failed` (the four statuses are exhaustive and mutually
exclusive) and `tasks_with_retries <= total_tasks`. -/
theorem getStats_partition (s : StoreState) :
    (getStats s).total_tasks =
      (getStats s).queued_tasks + (getStats s).running_tasks +
        (getStats s).succeeded_tasks + (getStats s).failed_tasks ∧
    (getStats s).tasks_with_retries ≤ (getStats s).total_tasks := by
  refine ⟨?_, ?_⟩
  · simp only [getStats]
    induction s.tasks with
    | nil => rfl
    | cons t ts ih =>
      simp only [List.length_cons, List.countP_cons]
      cases t.status <;> simp <;> omega
  · simp only [getStats]
    exact List.countP_le_length _

/-! ### Shape of each store operation's effect on the tasks table -/

/-- The best-effort history append never changes the id counter. -/
theorem insertHistoryBestEffort_nextID (s : StoreState) (b : Bool) (h : TaskHistory) :
    (insertHistoryBestEffort s b h).nextID = s.nextID := by
  cases b <;> rfl

/-- Every row of an updated table comes from a row of the original table,
either rewritten (when it matched) or untouched. -/
theorem mem_updateWhere {p : Task → Bool} {f : Task → Task} {ts : List Task} {t : Task}
    (h : t ∈ updateWhere p f ts) : ∃ u ∈ ts, (p u = true ∧ t = f u) ∨ t = u := by
  rw [updateWhere] at h
  obtain ⟨u, hu, he⟩ := List.mem_map.mp h
  by_cases hp : p u = true
  · exact ⟨u, hu, Or.inl ⟨hp, by rw [← he, if_pos hp]⟩⟩
  · exact ⟨u, hu, Or.inr (by rw [← he, if_neg hp])⟩

/-- An id-preserving update keeps the table's id column unchanged. -/
theorem map_id_updateWhere (p : Task → Bool) (f : Task → Task)
    (hf : ∀ x, (f x).id = x.id) (ts : List Task) :
    (updateWhere p f ts).map Task.id = ts.map Task.id := by
  rw [updateWhere, List.map_map]
  apply List.map_congr_left
  intro a _
  by_cases hp : p a = true
  · simp only [Function.comp_apply, if_pos hp, hf]
  · simp only [Function.comp_apply, if_neg hp]

/-- A row found in a prefix is still the row found in the whole table. -/
theorem find?_append_of_some {p : Task → Bool} {l1 : List Task} {t : Task}
    (l2 : List Task) (h : List.find? p l1 = some t) :
    List.find? p (l1 ++ l2) = some t := by
  induction l1 with
  | nil => simp [List.find?] at h
  | cons x xs ih =>
    rw [List.cons_append, List.find?_cons]
    rw [List.find?_cons] at h
    cases hx : p x with
    | true => rw [hx] at h; exact h
    | false => rw [hx] at h; exact ih h

/-- Effect of `CreateTask`: appends the new row and bumps the counter. -/
theorem applyOp_create_shape (s : StoreState) (req : CreateTaskRequest) (now : Int)
    (b : Bool) :
    (applyOp s (StoreOp.create req now b)).tasks = s.tasks ++ [(createTask s req now b).1] ∧
    (applyOp s (StoreOp.create req now b)).nextID = s.nextID + 1 := by
  constructor <;>
    simp only [applyOp, createTask, insertHistoryBestEffort_tasks,
      insertHistoryBestEffort_nextID]

/-- Effect of `ClaimNextTask`: either nothing, or an id-targeted rewrite of
the selected row to running-with-lease. -/
theorem applyOp_claim_shape (s : StoreState) (w : String) (now : Int) :
    applyOp s (StoreOp.claim w now) = s ∨
    ∃ c, selectClaim now s.tasks = some c ∧
      (applyOp s (StoreOp.claim w now)).tasks =
        updateWhere (fun u => u.id == c.id) (claimUpdate now) s.tasks ∧
      (applyOp s (StoreOp.claim w now)).nextID = s.nextID := by
  cases hsel : selectClaim now s.tasks with
  | none => left; simp only [applyOp, claimNextTask, hsel]
  | some c =>
    right
    exact ⟨c, rfl, by simp only [applyOp, claimNextTask, hsel],
      by simp only [applyOp, claimNextTask, hsel]⟩

/-- Effect of `CompleteTask`: either nothing (unknown id), or an id-targeted
rewrite to succeeded with cleared locks. -/
theorem applyOp_complete_shape (s : StoreState) (i : Nat) (now : Int) (b : Bool) :
    applyOp s (StoreOp.complete i now b) = s ∨
    ((applyOp s (StoreOp.complete i now b)).tasks =
        updateWhere (fun u => u.id == i)
          (fun u =>
            { u with
              status := TaskStatus.succeeded
              last_error := none
              locked_at := none
              lock_expires_at := none
              updated_at := now }) s.tasks ∧
      (applyOp s (StoreOp.complete i now b)).nextID = s.nextID) := by
  by_cases hc : (s.tasks.countP (fun u => u.id == i) == 0) = true
  · left; simp only [applyOp, completeTask, if_pos hc]
  · right
    constructor <;> simp only [applyOp, completeTask, if_neg hc,
      insertHistoryBestEffort_tasks, insertHistoryBestEffort_nextID]

/-- Effect of the `MarkTaskFailed` store function: not-found error, or an
id-targeted rewrite to failed with cleared locks. -/
theorem markTaskFailed_shape (s : StoreState) (i : Nat) (m : String) (now : Int)
    (b : Bool) :
    markTaskFailed s i m now b = Except.error StoreError.taskNotFound ∨
    ∃ s1, markTaskFailed s i m now b = Except.ok s1 ∧
      s1.tasks =
        updateWhere (fun u => u.id == i)
          (fun u =>
            { u with
              status := TaskStatus.failed
              last_error := some m
              locked_at := none
              lock_expires_at := none
              updated_at := now }) s.tasks ∧
      s1.nextID = s.nextID := by
  by_cases hc : (s.tasks.countP (fun u => u.id == i) == 0) = true
  · left; rw [markTaskFailed, if_pos hc]
  · right
    refine ⟨_, by rw [markTaskFailed, if_neg hc], ?_, ?_⟩ <;>
      simp only [insertHistoryBestEffort_tasks, insertHistoryBestEffort_nextID]

/-- Effect of `MarkTaskFailed` as a store operation. -/
theorem applyOp_markFailed_shape (s : StoreState) (i : Nat) (m : String) (now : Int)
    (b : Bool) :
    applyOp s (StoreOp.markFailed i m now b) = s ∨
    ((applyOp s (StoreOp.markFailed i m now b)).tasks =
        updateWhere (fun u => u.id == i)
          (fun u =>
            { u with
              status := TaskStatus.failed
              last_error := some m
              locked_at := none
              lock_expires_at := none
              updated_at := now }) s.tasks ∧
      (applyOp s (StoreOp.markFailed i m now b)).nextID = s.nextID) := by
  rcases markTaskFailed_shape s i m now b with h | ⟨s1, h, hts, hid⟩
  · left; simp only [applyOp, h]
  · right
    constructor <;> simp only [applyOp, h] <;> [exact hts; exact hid]

/-- Effect of `UpdateTaskStatus`: either nothing, or an id-targeted status
and error rewrite that leaves the lock fields alone. -/
theorem applyOp_setStatus_shape (s : StoreState) (i : Nat) (st : TaskStatus)
    (msg : Option String) (now : Int) :
    applyOp s (StoreOp.setStatus i st msg now) = s ∨
    ((applyOp s (StoreOp.setStatus i st msg now)).tasks =
        updateWhere (fun u => u.id == i)
          (fun u => { u with status := st, last_error := msg, updated_at := now }) s.tasks ∧
      (applyOp s (StoreOp.setStatus i st msg now)).nextID = s.nextID) := by
  by_cases hc : (s.tasks.countP (fun u => u.id == i) == 0) = true
  · left; simp only [applyOp, updateTaskStatus, if_pos hc]
  · right
    constructor <;> simp only [applyOp, updateTaskStatus, if_neg hc]

/-- Effect of `ScheduleRetry`: nothing (unknown id), or the exhausted-path
rewrite to failed, or the requeue rewrite with one more retry. -/
theorem applyOp_retry_shape (s : StoreState) (i : Nat) (m : String) (now : Int)
    (j : ℚ) (b : Bool) :
    applyOp s (StoreOp.retry i m now j b) = s ∨
    (∃ task, getTask s i = some task ∧ task.max_retries ≤ task.retry_count ∧
      ((applyOp s (StoreOp.retry i m now j b)).tasks =
          updateWhere (fun u => u.id == i)
            (fun u =>
              { u with
                status := TaskStatus.failed
                last_error := some ("max retries exceeded: " ++ m)
                locked_at := none
                lock_expires_at := none
                updated_at := now }) s.tasks ∧
        (applyOp s (StoreOp.retry i m now j b)).nextID = s.nextID)) ∨
    (∃ task, getTask s i = some task ∧ task.retry_count < task.max_retries ∧
      ((applyOp s (StoreOp.retry i m now j b)).tasks =
          updateWhere (fun u => u.id == i)
            (fun u =>
              { u with
                status := TaskStatus.queued
                retry_count := task.retry_count + 1
                last_error := some m
                next_run_at :=
                  now + calculateBackoff task.backoff_seconds (task.retry_count + 1) j
                locked_at := none
                lock_expires_at := none
                updated_at := now }) s.tasks ∧
        (applyOp s (StoreOp.retry i m now j b)).nextID = s.nextID)) := by
  cases hget : getTask s i with
  | none => left; simp only [applyOp, scheduleRetry, hget]
  | some task =>
    by_cases hge : task.retry_count ≥ task.max_retries
    · rcases markTaskFailed_shape s i ("max retries exceeded: " ++ m) now b with
        h | ⟨s1, h, hts, hid⟩
      · left; simp only [applyOp, scheduleRetry, hget, if_pos hge, h]
      · right; left
        refine ⟨task, rfl, hge, ?_, ?_⟩ <;>
          simp only [applyOp, scheduleRetry, hget, if_pos hge, h] <;>
          [exact hts; exact hid]
    · right; right
      have hget' : List.find? (fun u => u.id == i) s.tasks = some task := by
        rw [getTask] at hget; exact hget
      have hc := countP_id_ne_zero hget'
      have hc' : ¬ (s.tasks.countP (fun u => u.id == i) == 0) = true := by
        rw [hc]; exact Bool.false_ne_true
      refine ⟨task, rfl, not_le.mp hge, ?_, ?_⟩ <;>
        simp only [applyOp, scheduleRetry, hget, if_neg hge, if_neg hc',
          insertHistoryBestEffort_tasks, insertHistoryBestEffort_nextID]

/-! ### C5: the lock-field invariant -/

/-- C5 counterexample: the invariant "running iff both lock fields set"
does not survive every store operation.  From the empty store: create task
1 (queued, locks null), then `UpdateTaskStatus(1, running)` — which by
design does not touch the lock fields — yields a running task with null
`locked_at` and `lock_expires_at`. -/
theorem updateTaskStatus_breaks_lock_inv :
    ∃ t ∈ (runOps lockCexOps).tasks,
      ¬ (t.status = TaskStatus.running ↔
          (t.locked_at ≠ none ∧ t.lock_expires_at ≠ none)) := by
  decide

/-- One pipeline operation (anything but `UpdateTaskStatus`) preserves the
per-row lock invariant. -/
theorem lock_inv_step (s : StoreState) (op : StoreOp)
    (hop : isSetStatus op = false) (hs : ∀ t ∈ s.tasks, lockInv t) :
    ∀ t ∈ (applyOp s op).tasks, lockInv t := by
  cases op with
  | create req now b =>
    intro t ht
    rw [(applyOp_create_shape s req now b).1] at ht
    rcases List.mem_append.mp ht with h | h
    · exact hs t h
    · rw [List.mem_singleton] at h
      subst h
      simp [lockInv, createTask]
  | claim w now =>
    rcases applyOp_claim_shape s w now with h | ⟨c, _, hts, _⟩
    · rw [h]; exact hs
    · intro t ht
      rw [hts] at ht
      rcases mem_updateWhere ht with ⟨u, hu, ⟨_, rfl⟩ | rfl⟩
      · simp [lockInv, claimUpdate]
      · exact hs t hu
  | complete i now b =>
    rcases applyOp_complete_shape s i now b with h | ⟨hts, _⟩
    · rw [h]; exact hs
    · intro t ht
      rw [hts] at ht
      rcases mem_updateWhere ht with ⟨u, hu, ⟨_, rfl⟩ | rfl⟩
      · simp [lockInv]
      · exact hs t hu
  | markFailed i m now b =>
    rcases applyOp_markFailed_shape s i m now b with h | ⟨hts, _⟩
    · rw [h]; exact hs
    · intro t ht
      rw [hts] at ht
      rcases mem_updateWhere ht with ⟨u, hu, ⟨_, rfl⟩ | rfl⟩
      · simp [lockInv]
      · exact hs t hu
  | retry i m now j b =>
    rcases applyOp_retry_shape s i m now j b with h | ⟨task, _, _, hts, _⟩ |
      ⟨task, _, _, hts, _⟩
    · rw [h]; exact hs
    · intro t ht
      rw [hts] at ht
      rcases mem_updateWhere ht with ⟨u, hu, ⟨_, rfl⟩ | rfl⟩
      · simp [lockInv]
      · exact hs t hu
    · intro t ht
      rw [hts] at ht
      rcases mem_updateWhere ht with ⟨u, hu, ⟨_, rfl⟩ | rfl⟩
      · simp [lockInv]
      · exact hs t hu
  | setStatus i st msg now => simp [isSetStatus] at hop

/-- The lock invariant holds after any fold of pipeline operations over an
invariant-satisfying state. -/
theorem lock_inv_foldl :
    ∀ (ops : List StoreOp) (s : StoreState),
      (∀ op ∈ ops, isSetStatus op = false) → (∀ t ∈ s.tasks, lockInv t) →
      ∀ t ∈ (ops.foldl applyOp s).tasks, lockInv t := by
  intro ops
  induction ops with
  | nil => intro s _ hs; exact hs
  | cons op rest ih =>
    intro s hops hs
    rw [List.foldl_cons]
    exact ih (applyOp s op)
      (fun o ho => hops o (List.mem_cons_of_mem _ ho))
      (lock_inv_step s op (hops op (List.mem_cons_self _ _)) hs)

/-- C5 (amended): in every state reachable from the empty store by
sequences of store operations other than `UpdateTaskStatus`, every task has
status running iff both `locked_at` and `lock_expires_at` are non-null.
`UpdateTaskStatus` can break the invariant because it rewrites the status
without touching the lock fields. -/
theorem lock_inv_reachable (ops : List StoreOp)
    (hops : ∀ op ∈ ops, isSetStatus op = false) :
    ∀ t ∈ (runOps ops).tasks,
      t.status = TaskStatus.running ↔
        (t.locked_at ≠ none ∧ t.lock_expires_at ≠ none) :=
  lock_inv_foldl ops emptyStore hops (by intro t ht; simp [emptyStore] at ht)

/-- Witness for the amended C5 on a concrete create/claim/complete run. -/
theorem lock_inv_reachable_witness :
    lockWitTask ∈ (runOps lockWitOps).tasks ∧
    (lockWitTask.status = TaskStatus.running ↔
      (lockWitTask.locked_at ≠ none ∧ lockWitTask.lock_expires_at ≠ none)) :=
  ⟨by decide, lock_inv_reachable lockWitOps (by decide) lockWitTask (by decide)⟩

/-! ### C6: the retry-budget invariant -/

/-- C6 counterexample: `CreateTask` accepts a negative `max_retries` (the
store applies no validation), producing a task with
`retry_count = 0 > -1 = max_retries`. -/
theorem createTask_negative_max_retries :
    ∃ t ∈ (runOps [StoreOp.create badReq 0 true]).tasks,
      ¬ (0 ≤ t.retry_count ∧ t.retry_count ≤ t.max_retries) := by
  decide

/-- An id-preserving row update preserves table well-formedness. -/
theorem WF_updateWhere {s s1 : StoreState} {p : Task → Bool} {f : Task → Task}
    (hs : WF s) (hts : s1.tasks = updateWhere p f s.tasks)
    (hid : s1.nextID = s.nextID) (hf : ∀ x, (f x).id = x.id) :
    WF s1 := by
  obtain ⟨hlt, hnd⟩ := hs
  constructor
  · intro t ht
    rw [hts] at ht
    rw [hid]
    rcases mem_updateWhere ht with ⟨u, hu, ⟨_, rfl⟩ | rfl⟩
    · rw [hf]; exact hlt u hu
    · exact hlt t hu
  · rw [hts, map_id_updateWhere p f hf]
    exact hnd

/-- Every store operation preserves table well-formedness. -/
theorem WF_step (s : StoreState) (op : StoreOp) (hs : WF s) : WF (applyOp s op) := by
  cases op with
  | create req now b =>
    obtain ⟨hlt, hnd⟩ := hs
    obtain ⟨hts, hid⟩ := applyOp_create_shape s req now b
    constructor
    · intro t ht
      rw [hts] at ht
      rw [hid]
      rcases List.mem_append.mp ht with h | h
      · exact lt_trans (hlt t h) (Nat.lt_succ_self _)
      · rw [List.mem_singleton] at h
        subst h
        exact Nat.lt_succ_self s.nextID
    · rw [hts, List.map_append, List.nodup_append]
      refine ⟨hnd, List.nodup_singleton _, ?_⟩
      intro a ha hb
      simp only [List.map_cons, List.map_nil, List.mem_singleton] at hb
      obtain ⟨u, hu, hua⟩ := List.mem_map.mp ha
      have := hlt u hu
      have hb' : a = s.nextID := hb
      omega
  | claim w now =>
    rcases applyOp_claim_shape s w now with h | ⟨c, _, hts, hid⟩
    · rw [h]; exact hs
    · exact WF_updateWhere hs hts hid (fun _ => rfl)
  | complete i now b =>
    rcases applyOp_complete_shape s i now b with h | ⟨hts, hid⟩
    · rw [h]; exact hs
    · exact WF_updateWhere hs hts hid (fun _ => rfl)
  | markFailed i m now b =>
    rcases applyOp_markFailed_shape s i m now b with h | ⟨hts, hid⟩
    · rw [h]; exact hs
    · exact WF_updateWhere hs hts hid (fun _ => rfl)
  | retry i m now j b =>
    rcases applyOp_retry_shape s i m now j b with h | ⟨task, _, _, hts, hid⟩ |
      ⟨task, _, _, hts, hid⟩
    · rw [h]; exact hs
    · exact WF_updateWhere hs hts hid (fun _ => rfl)
    · exact WF_updateWhere hs hts hid (fun _ => rfl)
  | setStatus i st msg now =>
    rcases applyOp_setStatus_shape s i st msg now with h | ⟨hts, hid⟩
    · rw [h]; exact hs
    · exact WF_updateWhere hs hts hid (fun _ => rfl)

/-- One operation with a non-negative create budget preserves the per-row
retry invariant (well-formedness of the state is needed because the requeue
update writes the fetched row's incremented count back through its id). -/
theorem retry_inv_step (s : StoreState) (op : StoreOp)
    (hop : createNonneg op = true) (hs : WF s)
    (hinv : ∀ t ∈ s.tasks, retryInv t) :
    ∀ t ∈ (applyOp s op).tasks, retryInv t := by
  cases op with
  | create req now b =>
    intro t ht
    rw [(applyOp_create_shape s req now b).1] at ht
    rcases List.mem_append.mp ht with h | h
    · exact hinv t h
    · rw [List.mem_singleton] at h
      subst h
      have h0 : (createTask s req now b).1.retry_count = 0 := rfl
      have hmr : (createTask s req now b).1.max_retries = req.max_retries.getD 3 := rfl
      rw [retryInv, h0, hmr]
      simp only [createNonneg, decide_eq_true_eq] at hop
      exact ⟨le_refl 0, hop⟩
  | claim w now =>
    rcases applyOp_claim_shape s w now with h | ⟨c, _, hts, _⟩
    · rw [h]; exact hinv
    · intro t ht
      rw [hts] at ht
      rcases mem_updateWhere ht with ⟨u, hu, ⟨_, rfl⟩ | rfl⟩
      · exact hinv u hu
      · exact hinv t hu
  | complete i now b =>
    rcases applyOp_complete_shape s i now b with h | ⟨hts, _⟩
    · rw [h]; exact hinv
    · intro t ht
      rw [hts] at ht
      rcases mem_updateWhere ht with ⟨u, hu, ⟨_, rfl⟩ | rfl⟩
      · exact hinv u hu
      · exact hinv t hu
  | markFailed i m now b =>
    rcases applyOp_markFailed_shape s i m now b with h | ⟨hts, _⟩
    · rw [h]; exact hinv
    · intro t ht
      rw [hts] at ht
      rcases mem_updateWhere ht with ⟨u, hu, ⟨_, rfl⟩ | rfl⟩
      · exact hinv u hu
      · exact hinv t hu
  | setStatus i st msg now =>
    rcases applyOp_setStatus_shape s i st msg now with h | ⟨hts, _⟩
    · rw [h]; exact hinv
    · intro t ht
      rw [hts] at ht
      rcases mem_updateWhere ht with ⟨u, hu, ⟨_, rfl⟩ | rfl⟩
      · exact hinv u hu
      · exact hinv t hu
  | retry i m now j b =>
    rcases applyOp_retry_shape s i m now j b with h | ⟨task, _, _, hts, _⟩ |
      ⟨task, htask, hlt2, hts, _⟩
    · rw [h]; exact hinv
    · intro t ht
      rw [hts] at ht
      rcases mem_updateWhere ht with ⟨u, hu, ⟨_, rfl⟩ | rfl⟩
      · exact hinv u hu
      · exact hinv t hu
    · intro t ht
      rw [hts] at ht
      rcases mem_updateWhere ht with ⟨u, hu, ⟨hp, rfl⟩ | rfl⟩
      · have hu_id : u.id = i := by simpa using hp
        have htask' : List.find? (fun v => v.id == i) s.tasks = some task := htask
        have htaskmem : task ∈ s.tasks := List.mem_of_find?_eq_some htask'
        have htaskid : task.id = i := by simpa using List.find?_some htask'
        have hut : u = task := task_id_inj hs.2 hu htaskmem (by rw [hu_id, htaskid])
        subst hut
        obtain ⟨h0, _⟩ := hinv u hu
        refine ⟨?_, ?_⟩
        · show (0:Int) ≤ u.retry_count + 1
          omega
        · show u.retry_count + 1 ≤ u.max_retries
          omega
      · exact hinv t hu

/-- Well-formedness holds after any fold of operations. -/
theorem WF_foldl :
    ∀ (ops : List StoreOp) (s : StoreState), WF s → WF (ops.foldl applyOp s) := by
  intro ops
  induction ops with
  | nil => intro s hs; exact hs
  | cons op rest ih =>
    intro s hs
    rw [List.foldl_cons]
    exact ih (applyOp s op) (WF_step s op hs)

/-- The retry invariant holds after any fold of budget-respecting
operations over a well-formed invariant-satisfying state. -/
theorem retry_inv_foldl :
    ∀ (ops : List StoreOp) (s : StoreState),
      (∀ op ∈ ops, createNonneg op = true) → WF s →
      (∀ t ∈ s.tasks, retryInv t) →
      ∀ t ∈ (ops.foldl applyOp s).tasks, retryInv t := by
  intro ops
  induction ops with
  | nil => intro s _ _ hinv; exact hinv
  | cons op rest ih =>
    intro s hops hs hinv
    rw [List.foldl_cons]
    exact ih (applyOp s op)
      (fun o ho => hops o (List.mem_cons_of_mem _ ho))
      (WF_step s op hs)
      (retry_inv_step s op (hops op (List.mem_cons_self _ _)) hs hinv)

/-- Looking up the same id before and after an id-targeted update cannot
observe a smaller retry count, provided the rewrite does not shrink the
count of the very row it matches. -/
theorem find?_mono_updateWhere {i j : Nat} {f : Task → Task} {ts : List Task}
    {t t1 : Task}
    (hfind : List.find? (fun u => u.id == i) ts = some t)
    (hfind1 : List.find? (fun u => u.id == i)
        (updateWhere (fun u => u.id == j) f ts) = some t1)
    (hf : ∀ x, (f x).id = x.id)
    (hrc : (t.id == j) = true → t.retry_count ≤ (f t).retry_count) :
    t.retry_count ≤ t1.retry_count := by
  rw [find?_updateWhere i j f hf, hfind, Option.map_some'] at hfind1
  cases hfind1
  by_cases hc : (t.id == j) = true
  · rw [if_pos hc]; exact hrc hc
  · rw [if_neg hc]

/-- No single store operation decreases the retry count observed through
`GetTask`. -/
theorem retry_count_mono (s : StoreState) (op : StoreOp) (i : Nat) (t t1 : Task)
    (hget : getTask s i = some t) (hget1 : getTask (applyOp s op) i = some t1) :
    t.retry_count ≤ t1.retry_count := by
  have hfind : List.find? (fun u => u.id == i) s.tasks = some t := hget
  cases op with
  | create req now b =>
    rw [getTask, (applyOp_create_shape s req now b).1,
      find?_append_of_some _ hfind] at hget1
    cases hget1
    exact le_refl _
  | claim w now =>
    rcases applyOp_claim_shape s w now with h | ⟨c, _, hts, _⟩
    · rw [h, hget] at hget1; cases hget1; exact le_refl _
    · rw [getTask, hts] at hget1
      exact find?_mono_updateWhere hfind hget1 (fun _ => rfl) (fun _ => le_refl _)
  | complete i2 now b =>
    rcases applyOp_complete_shape s i2 now b with h | ⟨hts, _⟩
    · rw [h, hget] at hget1; cases hget1; exact le_refl _
    · rw [getTask, hts] at hget1
      exact find?_mono_updateWhere hfind hget1 (fun _ => rfl) (fun _ => le_refl _)
  | markFailed i2 m now b =>
    rcases applyOp_markFailed_shape s i2 m now b with h | ⟨hts, _⟩
    · rw [h, hget] at hget1; cases hget1; exact le_refl _
    · rw [getTask, hts] at hget1
      exact find?_mono_updateWhere hfind hget1 (fun _ => rfl) (fun _ => le_refl _)
  | setStatus i2 st msg now =>
    rcases applyOp_setStatus_shape s i2 st msg now with h | ⟨hts, _⟩
    · rw [h, hget] at hget1; cases hget1; exact le_refl _
    · rw [getTask, hts] at hget1
      exact find?_mono_updateWhere hfind hget1 (fun _ => rfl) (fun _ => le_refl _)
  | retry i2 m now j b =>
    rcases applyOp_retry_shape s i2 m now j b with h | ⟨task, _, _, hts, _⟩ |
      ⟨task, htask, _, hts, _⟩
    · rw [h, hget] at hget1; cases hget1; exact le_refl _
    · rw [getTask, hts] at hget1
      exact find?_mono_updateWhere hfind hget1 (fun _ => rfl) (fun _ => le_refl _)
    · rw [getTask, hts] at hget1
      refine find?_mono_updateWhere hfind hget1 (fun _ => rfl) ?_
      intro hc
      have htj : t.id = i2 := by simpa using hc
      have hti : t.id = i := by simpa using List.find?_some hfind
      have hij : i = i2 := by rw [← hti, htj]
      subst hij
      rw [hget] at htask
      cases htask
      show t.retry_count ≤ t.retry_count + 1
      omega

/-- C6 (amended): when every `CreateTask` request in the sequence carries a
non-negative `max_retries` (the store itself never validates this), every
task in every reachable state satisfies
`0 <= retry_count <= max_retries`; and regardless of that restriction, no
single store operation ever decreases the retry count a `GetTask` lookup
observes for a given id. -/
theorem retry_count_inv (ops : List StoreOp)
    (hops : ∀ op ∈ ops, createNonneg op = true) :
    (∀ t ∈ (runOps ops).tasks,
        0 ≤ t.retry_count ∧ t.retry_count ≤ t.max_retries) ∧
    (∀ (s : StoreState) (op : StoreOp) (i : Nat) (t t1 : Task),
        getTask s i = some t → getTask (applyOp s op) i = some t1 →
        t.retry_count ≤ t1.retry_count) := by
  constructor
  · exact retry_inv_foldl ops emptyStore hops
      ⟨by intro t ht; simp [emptyStore] at ht, by simp [emptyStore]⟩
      (by intro t ht; simp [emptyStore] at ht)
  · exact retry_count_mono

/-- Witness for the amended C6 on a concrete create/claim/retry run: the
requeued row respects its budget, and the retry did not shrink the count
observed for id 1. -/
theorem retry_count_inv_witness :
    (retryWitTask ∈ (runOps retryWitOps).tasks ∧
      0 ≤ retryWitTask.retry_count ∧
      retryWitTask.retry_count ≤ retryWitTask.max_retries) ∧
    runningWitTask.retry_count ≤ retryWitTask.retry_count :=
  have hmem : retryWitTask ∈ (runOps retryWitOps).tasks :=
    List.mem_singleton.mpr rfl
  ⟨⟨hmem, (retry_count_inv retryWitOps (by decide)).1 retryWitTask hmem⟩,
    (retry_count_inv retryWitOps (by decide)).2 claimedWitStore
      (StoreOp.retry 1 "boom" 9 0 true) 1 runningWitTask retryWitTask rfl rfl⟩

/-! ### C8: create / get round trip -/

/-- A search that fails on a prefix continues in the suffix. -/
theorem find?_append_of_none {p : Task → Bool} {l1 : List Task} (l2 : List Task)
    (h : List.find? p l1 = none) : List.find? p (l1 ++ l2) = List.find? p l2 := by
  induction l1 with
  | nil => rfl
  | cons x xs ih =>
    rw [List.find?_cons] at h
    rw [List.cons_append, List.find?_cons]
    cases hx : p x with
    | true => rw [hx] at h; exact absurd h (by simp)
    | false => rw [hx] at h; exact ih h

/-- C8: `CreateTask(req)` followed by `GetTask` on the returned id yields
exactly the inserted row: the request's inputs with defaults applied
(`max_retries = 3`, `timeout_seconds = 30`, `backoff_seconds = 5`, empty
payload replaced by the empty JSON object), `status = queued`,
`retry_count = 0`, `next_run_at = now`, lowercased type, and null error and
lock fields.  The hypothesis is the serial-counter property the database
guarantees: no existing row already carries the id about to be assigned. -/
theorem createTask_getTask (s : StoreState) (req : CreateTaskRequest) (now : Int)
    (b : Bool) (hids : ∀ t ∈ s.tasks, t.id < s.nextID) :
    (createTask s req now b).1.id = s.nextID ∧
    getTask (createTask s req now b).2 (createTask s req now b).1.id =
      some (createTask s req now b).1 ∧
    (createTask s req now b).1.name = req.name ∧
    (createTask s req now b).1.type = strToLower req.type ∧
    (createTask s req now b).1.payload =
      (if req.payload = "" then "\x7b\x7d" else req.payload) ∧
    (createTask s req now b).1.status = TaskStatus.queued ∧
    (createTask s req now b).1.priority = req.priority ∧
    (createTask s req now b).1.retry_count = 0 ∧
    (createTask s req now b).1.max_retries = req.max_retries.getD 3 ∧
    (createTask s req now b).1.timeout_seconds = req.timeout_seconds.getD 30 ∧
    (createTask s req now b).1.backoff_seconds = req.backoff_seconds.getD 5 ∧
    (createTask s req now b).1.last_error = none ∧
    (createTask s req now b).1.next_run_at = now ∧
    (createTask s req now b).1.locked_at = none ∧
    (createTask s req now b).1.lock_expires_at = none ∧
    (createTask s req now b).1.created_at = now := by
  refine ⟨rfl, ?_, rfl, rfl, rfl, rfl, rfl, rfl, rfl, rfl, rfl, rfl, rfl, rfl, rfl, rfl⟩
  have hts : ((createTask s req now b).2).tasks =
      s.tasks ++ [(createTask s req now b).1] := by
    simp only [createTask, insertHistoryBestEffort_tasks]
  have hnone : List.find?
      (fun u => u.id == (createTask s req now b).1.id) s.tasks = none := by
    rw [List.find?_eq_none]
    intro u hu
    simp only [beq_iff_eq]
    have hlt := hids u hu
    have hid : (createTask s req now b).1.id = s.nextID := rfl
    omega
  rw [getTask, hts, find?_append_of_none _ hnone, List.find?_cons,
    beq_self_eq_true]

/-- Witness for C8: create from the empty store at time 7. -/
theorem createTask_getTask_witness :
    (createTask emptyStore cexReq 7 true).1.id = emptyStore.nextID ∧
    getTask (createTask emptyStore cexReq 7 true).2
        (createTask emptyStore cexReq 7 true).1.id =
      some (createTask emptyStore cexReq 7 true).1 ∧
    (createTask emptyStore cexReq 7 true).1.name = cexReq.name ∧
    (createTask emptyStore cexReq 7 true).1.type = strToLower cexReq.type ∧
    (createTask emptyStore cexReq 7 true).1.payload =
      (if cexReq.payload = "" then "\x7b\x7d" else cexReq.payload) ∧
    (createTask emptyStore cexReq 7 true).1.status = TaskStatus.queued ∧
    (createTask emptyStore cexReq 7 true).1.priority = cexReq.priority ∧
    (createTask emptyStore cexReq 7 true).1.retry_count = 0 ∧
    (createTask emptyStore cexReq 7 true).1.max_retries = cexReq.max_retries.getD 3 ∧
    (createTask emptyStore cexReq 7 true).1.timeout_seconds =
      cexReq.timeout_seconds.getD 30 ∧
    (createTask emptyStore cexReq 7 true).1.backoff_seconds =
      cexReq.backoff_seconds.getD 5 ∧
    (createTask emptyStore cexReq 7 true).1.last_error = none ∧
    (createTask emptyStore cexReq 7 true).1.next_run_at = 7 ∧
    (createTask emptyStore cexReq 7 true).1.locked_at = none ∧
    (createTask emptyStore cexReq 7 true).1.lock_expires_at = none ∧
    (createTask emptyStore cexReq 7 true).1.created_at = 7 :=
  createTask_getTask emptyStore cexReq 7 true (by decide)

end TaskQueue
